import Mathlib

/-!
Verification development for the dfTimewolf state engine
(`dftimewolf/lib/state.py`, class `DFTimewolfState`).

The Python class is embedded shallowly: the mutable object state becomes the
record `DFTW.DFState`; each method becomes a pure function threading that
record.  Callback invocations and calls into module logic are recorded in
explicit observation lists (`invocations`, `Action` traces) so that temporal
ordering claims can be stated.  The run-phase dependency wait (the
`threading.Event` graph of `_RunModuleThread`) is modelled separately as a
small-step interleaving semantics (`SchedStep` / `SchedReachable`).
-/

namespace DFTW

/-- Error record (`dftimewolf.lib.errors.DFTimewolfError`): message, origin
name, critical flag, unexpected flag, optional stack trace. -/
structure DFTimewolfError where
  message : String
  name : String
  critical : Bool
  unexpected : Bool
  stacktrace : Option String
deriving DecidableEq

/-- An attribute container: `CONTAINER_TYPE` class tag plus an opaque payload
distinguishing instances. -/
structure Container where
  containerType : String
  payload : Nat
deriving DecidableEq

/-- The mutable state of a `DFTimewolfState` object.  `invocations` is the
observation log of streaming-callback invocations (callback id, argument);
each callback is modelled by a numeric id held in `streaming_callbacks`.
`events` models `_threading_event_per_module` (`true` = Event set). -/
structure DFState where
  cache : String → Option Nat
  errors : List DFTimewolfError
  global_errors : List DFTimewolfError
  store : String → List Container
  streaming_callbacks : String → List Nat
  events : String → Bool
  abort_execution : Bool
  invocations : List (Nat × Container)

/-- `__init__`: empty caches, stores, registries; abort flag starts false. -/
def initialState : DFState :=
  { cache := fun _ => none
    errors := []
    global_errors := []
    store := fun _ => []
    streaming_callbacks := fun _ => []
    events := fun _ => false
    abort_execution := false
    invocations := [] }

/-- `AddToCache`: overwrite the cache entry for `name`. -/
def AddToCache (s : DFState) (name : String) (value : Nat) : DFState :=
  { s with cache := fun k => if k = name then some value else s.cache k }

/-- `GetFromCache`: read the cache entry for `name`, defaulting. -/
def GetFromCache (s : DFState) (name : String) (default_value : Nat) : Nat :=
  (s.cache name).getD default_value

/-- `StoreContainer`: append the container to the list keyed by its
`CONTAINER_TYPE`.  The method body only mutates the store: it invokes no
streaming callback, so the invocation log is untouched. -/
def StoreContainer (s : DFState) (container : Container) : DFState :=
  { s with store := fun t =>
      if t = container.containerType then
        s.store container.containerType ++ [container]
      else s.store t }

/-- `GetContainers`: return the list for the tag; if `pop`, reset that tag to
the empty list in the same critical section. -/
def GetContainers (s : DFState) (container_type : String) (pop : Bool) :
    DFState × List Container :=
  let container_objects := s.store container_type
  if pop then
    ({ s with store := fun t => if t = container_type then [] else s.store t },
     container_objects)
  else
    (s, container_objects)

/-- `RegisterStreamingCallback`: append the callback to the tag's list. -/
def RegisterStreamingCallback (s : DFState) (target : Nat)
    (container_type : String) : DFState :=
  { s with streaming_callbacks := fun t =>
      if t = container_type then
        s.streaming_callbacks container_type ++ [target]
      else s.streaming_callbacks t }

/-- `StreamContainer`: synchronously invoke, in registration order, every
callback registered for the container's type; each invocation is logged. -/
def StreamContainer (s : DFState) (container : Container) : DFState :=
  let called := (s.streaming_callbacks container.containerType).map
    (fun cb => (cb, container))
  { s with invocations := s.invocations ++ called }

/-- Streaming a sequence of containers one after the other. -/
def streamMany (s : DFState) (cs : List Container) : DFState :=
  cs.foldl StreamContainer s

/-- `AddError`: if the record is critical, set `_abort_execution`; append the
record to the round-scoped error list. -/
def AddError (s : DFState) (error : DFTimewolfError) : DFState :=
  { s with
      abort_execution := if error.critical then true else s.abort_execution
      errors := s.errors ++ [error] }

/-- Recording a whole list of errors, in order. -/
def addErrors (s : DFState) (es : List DFTimewolfError) : DFState :=
  es.foldl AddError s

/-- `CleanUp`: move all round-scoped errors to the global list, then clear the
round-scoped list. -/
def CleanUp (s : DFState) : DFState :=
  { s with
      global_errors := s.global_errors ++ s.errors
      errors := [] }

/-- The per-error log line `"{index+1}: error from {name}: {message}"`. -/
def errorLogLine (index : Nat) (e : DFTimewolfError) : String :=
  toString (index + 1) ++ ": error from " ++ e.name ++ ": " ++ e.message

/-- The stack-trace lines logged for one record (`if error.stacktrace:` is
false for both `None` and the empty string). -/
def stacktraceLines (e : DFTimewolfError) : List String :=
  match e.stacktrace with
  | some st => if st.isEmpty then [] else st.splitOn "\n"
  | none => []

/-- The `for index, error in enumerate(error_objects)` logging loop. -/
def perErrorLogs : Nat → List DFTimewolfError → List String
  | _, [] => []
  | idx, e :: rest =>
      (errorLogLine idx e :: stacktraceLines e) ++ perErrorLogs (idx + 1) rest

/-- The two diagnostic lines emitted when any record is unexpected. -/
def unexpectedDiagnostic : List String :=
  ["One or more unexpected errors occurred.",
   "Please consider opening an issue: https://github.com/log2timeline/dftimewolf/issues/new"]

/-- `CheckErrors`: select round or global list, log every record, emit the
unexpected diagnostic when applicable, and finally raise `CriticalError` iff
any record in the selected list is critical.  Returns the (unchanged) state,
the emitted log lines, and the raised message if any.  The method performs no
assignment, so the returned state is the input state. -/
def CheckErrors (s : DFState) (is_global : Bool) :
    DFState × List String × Option String :=
  let error_objects := if is_global then s.global_errors else s.errors
  let headerLogs :=
    if error_objects.isEmpty then []
    else ["dfTimewolf encountered one or more errors:"]
  let bodyLogs := perErrorLogs 0 error_objects
  let unexpectedLogs :=
    if error_objects.any (fun e => e.unexpected) then unexpectedDiagnostic
    else []
  let critical_errors := error_objects.any (fun e => e.critical)
  (s, headerLogs ++ bodyLogs ++ unexpectedLogs,
   if critical_errors then some "Critical error found. Aborting." else none)

/-- Outcome of one call into module logic: success, a deliberately raised
`DFTimewolfError`, or any other exception (message, stack trace). -/
inductive Outcome where
  | ok
  | declared (e : DFTimewolfError)
  | unexpected (msg stack : String)
deriving DecidableEq

/-- The error record the task driver builds when it catches a non-DFTimewolf
exception: critical, unexpected, carrying the stack trace. -/
def wrapUnknownError (moduleName msg stack : String) : DFTimewolfError :=
  { message := "An unknown error occurred in module " ++ moduleName ++ ": " ++ msg
    name := "state"
    critical := true
    unexpected := true
    stacktrace := some stack }

/-- Modelled from the spec: `BaseModule.ModuleError` (in
`dftimewolf/lib/module.py`, which is not part of the analysed sources) records
a deliberately raised `DFTimewolfError` via `AddError`, with the critical flag
the module declared and `unexpected=false`, before raising it.  A `declared`
outcome has therefore already been recorded by module logic itself when the
task driver catches it. -/
def recordDeclared (s : DFState) : Outcome → DFState
  | .declared e => AddError s e
  | _ => s

/-- One call into module logic together with the task driver's two `except`
branches: a declared `DFTimewolfError` is only logged by the driver (it was
recorded at raise time, see `recordDeclared`); any other exception is wrapped
by the driver via `wrapUnknownError` and recorded via `AddError`. -/
def runLogicCatch (moduleName : String) (s : DFState) (oc : Outcome) : DFState :=
  match oc with
  | .ok => s
  | .declared e => AddError s e
  | .unexpected msg stack => AddError s (wrapUnknownError moduleName msg stack)

/-- A fault captured by a worker-pool future. -/
inductive UnitFault where
  | declaredF (e : DFTimewolfError)
  | unexpectedF (msg stack : String)
deriving DecidableEq

/-- The fault (if any) a future holds for a unit outcome. -/
def outcomeFault : Outcome → Option UnitFault
  | .ok => none
  | .declared e => some (.declaredF e)
  | .unexpected msg stack => some (.unexpectedF msg stack)

/-- Observable calls made by a run-phase module task. -/
inductive Action where
  | logAbort
  | preProcess
  | submit (c : Container)
  | postProcess
  | process
  | surface (f : UnitFault)
  | clearTag (tag : String)
  | setEvent (name : String)
  | cleanup
deriving DecidableEq

/-- Behaviour of a `ThreadAwareModule` as seen by `_RunModuleThread`:
its declared fan-out container type, pool size, the outcome of each per-unit
`Process(container)` call, the `PreProcess`/`PostProcess` outcomes, and
`KeepThreadedContainersInState()`. -/
structure ThreadAwareSpec where
  threadOnContainerType : String
  threadPoolSize : Nat
  unitOutcome : Container → Outcome
  preProcessOutcome : Outcome
  postProcessOutcome : Outcome
  keepThreadedContainersInState : Bool

/-- Behaviour of a module's run phase: a plain module's `Process()` outcome,
or a thread-aware module's fan-out behaviour. -/
inductive ModuleImpl where
  | simple (processOutcome : Outcome)
  | threadAware (t : ThreadAwareSpec)

/-- Set the completion signal (`threading.Event.set`) for a runtime name. -/
def SetModuleEvent (s : DFState) (name : String) : DFState :=
  { s with events := fun n => if n = name then true else s.events n }

/-- The declared (`DFTimewolfError`) faults of a fan-out batch, in submission
order; these are recorded by module logic at raise time. -/
def declaredUnitErrors (t : ThreadAwareSpec) (cs : List Container) :
    List DFTimewolfError :=
  cs.filterMap (fun c =>
    match t.unitOutcome c with
    | .declared e => some e
    | _ => none)

/-- The first future (in submission order) holding an exception. -/
def firstUnitFault (t : ThreadAwareSpec) (cs : List Container) :
    Option UnitFault :=
  (cs.map (fun c => outcomeFault (t.unitOutcome c))).findSome? id

/-- The record the driver adds when re-raising the first failing future:
a declared fault was already recorded by the unit, any other is wrapped. -/
def surfacedWrap (moduleName : String) : Option UnitFault → List DFTimewolfError
  | some (.unexpectedF msg stack) => [wrapUnknownError moduleName msg stack]
  | _ => []

/-- The state after the worker pool has drained: every unit has run, each
declared unit fault having been recorded at raise time (submission order). -/
def fanoutUnits (t : ThreadAwareSpec) (cs : List Container) (s : DFState) :
    DFState :=
  cs.foldl (fun acc c => recordDeclared acc (t.unitOutcome c)) s

/-- The `ThreadAwareModule` branch of `_RunModuleThread` (inside the `try`):
`PreProcess()`, read the store for the fan-out tag, submit one task per
container to the pool, drain the pool, `PostProcess()`, re-raise the first
future exception if any, else pop the tag unless
`KeepThreadedContainersInState()`.  Declared unit faults are recorded at raise
time inside the pool (submission order); driver `except` handling wraps
whatever exception escapes the `try`. -/
def runThreadAwareBody (moduleName : String) (t : ThreadAwareSpec)
    (s : DFState) : DFState × List Action :=
  match t.preProcessOutcome with
  | .declared e => (AddError s e, [Action.preProcess])
  | .unexpected msg stack =>
      (AddError s (wrapUnknownError moduleName msg stack), [Action.preProcess])
  | .ok =>
    let cs := s.store t.threadOnContainerType
    let submits := cs.map Action.submit
    let s1 := fanoutUnits t cs s
    match t.postProcessOutcome with
    | .declared e =>
        (AddError s1 e, Action.preProcess :: submits ++ [Action.postProcess])
    | .unexpected msg stack =>
        (AddError s1 (wrapUnknownError moduleName msg stack),
         Action.preProcess :: submits ++ [Action.postProcess])
    | .ok =>
      match (cs.map (fun c => outcomeFault (t.unitOutcome c))).findSome? id with
      | some f =>
        let s2 :=
          match f with
          | .declaredF _ => s1
          | .unexpectedF msg stack =>
              AddError s1 (wrapUnknownError moduleName msg stack)
        (s2, Action.preProcess :: submits ++ [Action.postProcess, Action.surface f])
      | none =>
        if t.keepThreadedContainersInState then
          (s1, Action.preProcess :: submits ++ [Action.postProcess])
        else
          ((GetContainers s1 t.threadOnContainerType true).1,
           Action.preProcess :: submits ++
             [Action.postProcess, Action.clearTag t.threadOnContainerType])

/-- `_RunModuleThread` after its dependency wait (the wait itself is modelled
by the interleaving semantics below): if `_abort_execution` is set, skip all
module logic; otherwise run the module body under the driver's `except`
handling; in every case set the module's completion signal and `CleanUp`. -/
def RunModuleThread (runtime_name : String) (impl : ModuleImpl) (s : DFState) :
    DFState × List Action :=
  if s.abort_execution then
    (CleanUp (SetModuleEvent s runtime_name),
     [Action.logAbort, Action.setEvent runtime_name, Action.cleanup])
  else
    let body :=
      match impl with
      | .simple oc => (runLogicCatch runtime_name s oc, [Action.process])
      | .threadAware t => runThreadAwareBody runtime_name t s
    (CleanUp (SetModuleEvent body.1 runtime_name),
     body.2 ++ [Action.setEvent runtime_name, Action.cleanup])

/-- `_SetupModuleThread`: run `SetUp` under the driver's `except` handling,
then create a fresh (unset) completion event for the module and `CleanUp`. -/
def SetupModuleThread (runtime_name : String) (oc : Outcome) (s : DFState) :
    DFState :=
  let s1 := runLogicCatch runtime_name s oc
  let s2 := { s1 with events := fun n =>
                if n = runtime_name then false else s1.events n }
  CleanUp s2

/-- Behaviour of one preflight module as seen by `RunPreflights`: which errors
its `SetUp` and `Process` record via `AddError`, and whether each raises. -/
structure PreflightDef where
  runtime_name : String
  setUpRecords : List DFTimewolfError
  setUpRaises : Bool
  processRecords : List DFTimewolfError
  processRaises : Bool

/-- Observable calls made by `RunPreflights`. -/
inductive PfAction where
  | setUp (name : String)
  | process (name : String)
  | checkErrors
deriving DecidableEq

/-- How a `RunPreflights` run terminates early. -/
inductive RunStop where
  | criticalError
  | moduleException
deriving DecidableEq

/-- `RunPreflights`: strictly sequential, in declaration order; for each
preflight `SetUp(**args)` then `Process()`, with `CheckErrors(is_global=True)`
in a `finally` block.  An exception escaping `SetUp`/`Process` propagates (the
driver has no `except`), but the `finally` `CheckErrors` runs first and a
`CriticalError` raised there replaces the in-flight exception. -/
def RunPreflights : List PreflightDef → DFState →
    DFState × List PfAction × Option RunStop
  | [], s => (s, [], none)
  | pf :: rest, s =>
    let s1 := addErrors s pf.setUpRecords
    if pf.setUpRaises then
      let chk := CheckErrors s1 true
      (chk.1, [PfAction.setUp pf.runtime_name, PfAction.checkErrors],
       some (if chk.2.2.isSome then RunStop.criticalError
             else RunStop.moduleException))
    else
      let s2 := addErrors s1 pf.processRecords
      let chk := CheckErrors s2 true
      if pf.processRaises then
        (chk.1,
         [PfAction.setUp pf.runtime_name, PfAction.process pf.runtime_name,
          PfAction.checkErrors],
         some (if chk.2.2.isSome then RunStop.criticalError
               else RunStop.moduleException))
      else
        if chk.2.2.isSome then
          (chk.1,
           [PfAction.setUp pf.runtime_name, PfAction.process pf.runtime_name,
            PfAction.checkErrors],
           some RunStop.criticalError)
        else
          let r := RunPreflights rest chk.1
          (r.1,
           PfAction.setUp pf.runtime_name :: PfAction.process pf.runtime_name ::
             PfAction.checkErrors :: r.2.1,
           r.2.2)

/-! ## Interleaving semantics of the run-phase dependency wait

`RunModules` launches one thread per module definition; each thread first
waits on the completion event of every name in its `wants` list (in list
order), then checks the abort flag, then runs module logic, then sets its own
event.  The scheduler below interleaves these threads arbitrarily. -/

/-- A recipe module definition: runtime name and dependency list. -/
structure ModuleDef where
  runtime_name : String
  wants : List String
deriving DecidableEq

/-- Control state of one run-phase thread: still waiting on the listed
events, executing module logic, or finished (event set, cleaned up). -/
inductive TaskPC where
  | waiting (pending : List String)
  | running
  | done
deriving DecidableEq

/-- Global state of the run-phase scheduler. -/
structure SchedState where
  pcs : String → TaskPC
  events : String → Bool
  abort : Bool

/-- The `wants` list of the module definition with a given runtime name. -/
def wantsOf (defs : List ModuleDef) (n : String) : List String :=
  ((defs.find? (fun d => d.runtime_name == n)).map (fun d => d.wants)).getD []

/-- Initial scheduler state: every thread at the head of its wait list, no
event set, abort flag false. -/
def initSched (defs : List ModuleDef) : SchedState :=
  { pcs := fun n => TaskPC.waiting (wantsOf defs n)
    events := fun _ => false
    abort := false }

/-- One atomic step of one thread, chosen nondeterministically: pass one
`Event.wait` (only possible once that event is set), observe the abort flag
and either begin module logic or short-circuit (setting the own event), or
finish module logic (setting the own event, possibly recording a critical
error that sets the abort flag). -/
inductive SchedStep (defs : List ModuleDef) : SchedState → SchedState → Prop where
  | waitDep (s : SchedState) (m : ModuleDef) (d : String) (rest : List String) :
      m ∈ defs → s.pcs m.runtime_name = TaskPC.waiting (d :: rest) →
      s.events d = true →
      SchedStep defs s
        { s with pcs := fun n =>
            if n = m.runtime_name then TaskPC.waiting rest else s.pcs n }
  | beginRun (s : SchedState) (m : ModuleDef) :
      m ∈ defs → s.pcs m.runtime_name = TaskPC.waiting [] → s.abort = false →
      SchedStep defs s
        { s with pcs := fun n =>
            if n = m.runtime_name then TaskPC.running else s.pcs n }
  | abortSkip (s : SchedState) (m : ModuleDef) :
      m ∈ defs → s.pcs m.runtime_name = TaskPC.waiting [] → s.abort = true →
      SchedStep defs s
        { s with
            pcs := fun n =>
              if n = m.runtime_name then TaskPC.done else s.pcs n
            events := fun n =>
              if n = m.runtime_name then true else s.events n }
  | finishRun (s : SchedState) (m : ModuleDef) (b : Bool) :
      m ∈ defs → s.pcs m.runtime_name = TaskPC.running →
      SchedStep defs s
        { s with
            pcs := fun n =>
              if n = m.runtime_name then TaskPC.done else s.pcs n
            events := fun n =>
              if n = m.runtime_name then true else s.events n
            abort := s.abort || b }

/-- States reachable from the launch of the run phase. -/
inductive SchedReachable (defs : List ModuleDef) : SchedState → Prop where
  | init : SchedReachable defs (initSched defs)
  | step {s s' : SchedState} :
      SchedReachable defs s → SchedStep defs s s' → SchedReachable defs s'

/-- Per-thread invariant: a waiting thread has consumed a prefix of its
`wants`, each consumed event being set; a thread past its wait has every
dependency event set. -/
def TaskInvariant (wants : List String) (pc : TaskPC)
    (events : String → Bool) : Prop :=
  match pc with
  | TaskPC.waiting pending =>
      ∃ pre, wants = pre ++ pending ∧ ∀ d ∈ pre, events d = true
  | _ => ∀ d ∈ wants, events d = true

/-- Scheduler invariant: every declared module satisfies its task invariant,
and a set event means the owning thread has terminated. -/
def SchedInv (defs : List ModuleDef) (s : SchedState) : Prop :=
  (∀ m ∈ defs, TaskInvariant m.wants (s.pcs m.runtime_name) s.events) ∧
  (∀ m ∈ defs, s.events m.runtime_name = true →
    s.pcs m.runtime_name = TaskPC.done)

/-! ## Concrete instances used by witnesses and counterexamples -/

/-- A critical, unexpected error record. -/
def errCrit : DFTimewolfError :=
  { message := "boom", name := "modA", critical := true, unexpected := true,
    stacktrace := none }

/-- A non-critical, expected error record. -/
def errSoft : DFTimewolfError :=
  { message := "meh", name := "modB", critical := false, unexpected := false,
    stacktrace := none }

/-- A container of tag `T`. -/
def contT1 : Container := { containerType := "T", payload := 1 }

/-- A second container of tag `T`. -/
def contT2 : Container := { containerType := "T", payload := 2 }

/-- A state with one streaming callback (id 0) registered for tag `T`. -/
def stateCb : DFState := RegisterStreamingCallback initialState 0 "T"

/-- A state whose store holds two containers of tag `T`. -/
def stateTT : DFState := StoreContainer (StoreContainer initialState contT1) contT2

/-- A fan-out behaviour whose every unit fails with an unknown exception and
which does not retain containers. -/
def taFail : ThreadAwareSpec :=
  { threadOnContainerType := "T"
    threadPoolSize := 2
    unitOutcome := fun c => Outcome.unexpected ("u" ++ toString c.payload) "tb"
    preProcessOutcome := Outcome.ok
    postProcessOutcome := Outcome.ok
    keepThreadedContainersInState := false }

/-- A preflight that records a critical error during `Process` but raises
nothing. -/
def pfRecords : PreflightDef :=
  { runtime_name := "p1", setUpRecords := [], setUpRaises := false,
    processRecords := [errCrit], processRaises := false }

/-- A benign preflight. -/
def pfBenign : PreflightDef :=
  { runtime_name := "p2", setUpRecords := [], setUpRaises := false,
    processRecords := [], processRaises := false }

/-- The two-module recipe `A` (no deps) and `B` (`wants=[A]`). -/
def defsAB : List ModuleDef := [⟨"A", []⟩, ⟨"B", ["A"]⟩]

/-- Scheduler trace state 0: launch. -/
def schedAB0 : SchedState := initSched defsAB

/-- Scheduler trace state 1: `A` has begun its module logic. -/
def schedAB1 : SchedState :=
  { schedAB0 with pcs := fun n =>
      if n = "A" then TaskPC.running else schedAB0.pcs n }

/-- Scheduler trace state 2: `A` has finished and set its event. -/
def schedAB2 : SchedState :=
  { schedAB1 with
      pcs := fun n => if n = "A" then TaskPC.done else schedAB1.pcs n
      events := fun n => if n = "A" then true else schedAB1.events n
      abort := schedAB1.abort || false }

/-- Scheduler trace state 3: `B` has passed its wait on `A`. -/
def schedAB3 : SchedState :=
  { schedAB2 with pcs := fun n =>
      if n = "B" then TaskPC.waiting [] else schedAB2.pcs n }

/-- Scheduler trace state 4: `B` has begun its module logic. -/
def schedAB4 : SchedState :=
  { schedAB3 with pcs := fun n =>
      if n = "B" then TaskPC.running else schedAB3.pcs n }

/-- A state whose round-scoped list holds a critical and a benign record. -/
def stateErr : DFState := { initialState with errors := [errCrit, errSoft] }

/-- A state whose abort flag is already set. -/
def stateAbort : DFState := { initialState with abort_execution := true }

/-- A third container of tag `T`. -/
def contT3 : Container := { containerType := "T", payload := 3 }

/-- A state with two streaming callbacks (ids 0 and 1) registered for `T`. -/
def stateCb2 : DFState :=
  RegisterStreamingCallback (RegisterStreamingCallback initialState 0 "T") 1 "T"

/-- A fan-out behaviour whose units all succeed and which does not retain
containers. -/
def taOk : ThreadAwareSpec :=
  { threadOnContainerType := "T"
    threadPoolSize := 2
    unitOutcome := fun _ => Outcome.ok
    preProcessOutcome := Outcome.ok
    postProcessOutcome := Outcome.ok
    keepThreadedContainersInState := false }

/-- A preflight whose `SetUp` raises. -/
def pfRaise : PreflightDef :=
  { runtime_name := "p3", setUpRecords := [], setUpRaises := true,
    processRecords := [], processRaises := false }

/-! ## Helper lemmas -/

theorem checkErrors_state_id (s : DFState) (g : Bool) : (CheckErrors s g).1 = s := rfl

theorem checkErrors_logs_eq (s : DFState) (g : Bool) :
    (CheckErrors s g).2.1 =
      (if (if g then s.global_errors else s.errors).isEmpty then []
       else ["dfTimewolf encountered one or more errors:"]) ++
      perErrorLogs 0 (if g then s.global_errors else s.errors) ++
      (if (if g then s.global_errors else s.errors).any (fun e => e.unexpected)
       then unexpectedDiagnostic else []) := rfl

theorem checkErrors_raise_isSome (s : DFState) (g : Bool) :
    (CheckErrors s g).2.2.isSome
      = (if g then s.global_errors else s.errors).any (fun e => e.critical) := by
  simp only [CheckErrors]
  cases h : (if g then s.global_errors else s.errors).any (fun e => e.critical) <;>
    simp [h]

theorem mem_perErrorLogs_line :
    ∀ (L : List DFTimewolfError) (n i : Nat) (h : i < L.length),
      errorLogLine (n + i) (L.get ⟨i, h⟩) ∈ perErrorLogs n L := by
  intro L
  induction L with
  | nil => intro n i h; exact absurd h (by simp)
  | cons e rest ih =>
    intro n i h
    cases i with
    | zero => simp [perErrorLogs]
    | succ j =>
      have hj : j < rest.length := by simpa using h
      have hmem := ih (n + 1) j hj
      have hn : n + (j + 1) = (n + 1) + j := by omega
      rw [hn]
      exact List.mem_append_right _ hmem

theorem mem_perErrorLogs_stack :
    ∀ (L : List DFTimewolfError) (n i : Nat) (h : i < L.length),
      ∀ ln ∈ stacktraceLines (L.get ⟨i, h⟩), ln ∈ perErrorLogs n L := by
  intro L
  induction L with
  | nil => intro n i h; exact absurd h (by simp)
  | cons e rest ih =>
    intro n i h ln hln
    cases i with
    | zero =>
      exact List.mem_append_left _ (List.mem_cons_of_mem _ hln)
    | succ j =>
      have hj : j < rest.length := by simpa using h
      exact List.mem_append_right _ (ih (n + 1) j hj ln hln)

/-! ## Claim theorems -/

/-- Claim C7: storing `c1` then `c2` of tag `T` then reading `T` yields
`[c1, c2]`; reading with `pop=true` returns `[c1, c2]` and atomically leaves
tag `T` empty, so an immediately following read returns the empty sequence. -/
theorem store_fifo (s : DFState) (c1 c2 : Container) (T : String)
    (h1 : c1.containerType = T) (h2 : c2.containerType = T)
    (h0 : s.store T = []) :
    (GetContainers (StoreContainer (StoreContainer s c1) c2) T false).2 = [c1, c2]
  ∧ (GetContainers (StoreContainer (StoreContainer s c1) c2) T true).2 = [c1, c2]
  ∧ ((GetContainers (StoreContainer (StoreContainer s c1) c2) T true).1).store T = []
  ∧ (GetContainers
      ((GetContainers (StoreContainer (StoreContainer s c1) c2) T true).1)
      T false).2 = [] := by
  subst h1
  simp [GetContainers, StoreContainer, h2, h0]

/-- Claim C7 witness: the FIFO property evaluated on two concrete containers
stored in the empty state. -/
theorem store_fifo_witness :
    (GetContainers (StoreContainer (StoreContainer initialState contT1) contT2)
       "T" false).2 = [contT1, contT2]
  ∧ ((GetContainers (StoreContainer (StoreContainer initialState contT1) contT2)
       "T" true).1).store "T" = [] := by
  have h := store_fifo initialState contT1 contT2 "T" rfl rfl rfl
  exact ⟨h.1, h.2.2.1⟩

/-- Claim C10: `CheckErrors` never mutates the state: for every state and
either scope the returned state is the input state — round errors, global
errors, store, cache and abort flag included — also when it raises. -/
theorem CheckErrors_frame (s : DFState) (is_global : Bool) :
    (CheckErrors s is_global).1 = s
  ∧ (CheckErrors s is_global).1.errors = s.errors
  ∧ (CheckErrors s is_global).1.global_errors = s.global_errors
  ∧ (CheckErrors s is_global).1.store = s.store
  ∧ (CheckErrors s is_global).1.cache = s.cache
  ∧ (CheckErrors s is_global).1.abort_execution = s.abort_execution :=
  ⟨rfl, rfl, rfl, rfl, rfl, rfl⟩

/-- Claim C5: `CheckErrors` raises the fatal error iff some record in the
selected list is critical; every record is logged (index line and stack-trace
lines) in the emitted log, and the unexpected-error diagnostic is emitted
whenever any record is unexpected. -/
theorem CheckErrors_fatal_iff (s : DFState) (is_global : Bool) :
    ((CheckErrors s is_global).2.2.isSome
      = (if is_global then s.global_errors else s.errors).any (fun e => e.critical))
  ∧ (∀ i (h : i < (if is_global then s.global_errors else s.errors).length),
       errorLogLine i ((if is_global then s.global_errors else s.errors).get ⟨i, h⟩)
         ∈ (CheckErrors s is_global).2.1
       ∧ ∀ ln ∈ stacktraceLines
           ((if is_global then s.global_errors else s.errors).get ⟨i, h⟩),
           ln ∈ (CheckErrors s is_global).2.1)
  ∧ ((if is_global then s.global_errors else s.errors).any (fun e => e.unexpected)
       = true →
     "One or more unexpected errors occurred." ∈ (CheckErrors s is_global).2.1) := by
  refine ⟨checkErrors_raise_isSome s is_global, ?_, ?_⟩
  · intro i h
    constructor
    · rw [checkErrors_logs_eq]
      refine List.mem_append_left _ (List.mem_append_right _ ?_)
      simpa using
        mem_perErrorLogs_line (if is_global then s.global_errors else s.errors) 0 i h
    · intro ln hln
      rw [checkErrors_logs_eq]
      refine List.mem_append_left _ (List.mem_append_right _ ?_)
      exact mem_perErrorLogs_stack
        (if is_global then s.global_errors else s.errors) 0 i h ln hln
  · intro hu
    rw [checkErrors_logs_eq, hu]
    refine List.mem_append_right _ ?_
    simp [unexpectedDiagnostic]

/-- Claim C5 witness: on a concrete ledger holding one critical unexpected
record and one benign record, `CheckErrors` raises, logs the first record,
and emits the unexpected diagnostic. -/
theorem CheckErrors_fatal_iff_witness :
    (CheckErrors stateErr false).2.2.isSome = true
  ∧ errorLogLine 0 errCrit ∈ (CheckErrors stateErr false).2.1
  ∧ "One or more unexpected errors occurred." ∈ (CheckErrors stateErr false).2.1 := by
  have h := CheckErrors_fatal_iff stateErr false
  exact ⟨h.1.trans (by decide), (h.2.1 0 (by decide)).1, h.2.2 (by decide)⟩

theorem streamContainer_fields (s : DFState) (c : Container) :
    (StreamContainer s c).streaming_callbacks = s.streaming_callbacks
  ∧ (StreamContainer s c).store = s.store
  ∧ (StreamContainer s c).invocations
      = s.invocations ++
          (s.streaming_callbacks c.containerType).map (fun cb => (cb, c)) :=
  ⟨rfl, rfl, rfl⟩

theorem streamMany_fields :
    ∀ (cs : List Container) (s : DFState),
      (streamMany s cs).invocations
        = s.invocations ++
            cs.flatMap (fun c =>
              (s.streaming_callbacks c.containerType).map (fun cb => (cb, c)))
    ∧ (streamMany s cs).store = s.store
    ∧ (streamMany s cs).streaming_callbacks = s.streaming_callbacks := by
  intro cs
  induction cs with
  | nil => intro s; simp [streamMany]
  | cons c rest ih =>
    intro s
    have hstep : streamMany s (c :: rest) = streamMany (StreamContainer s c) rest := rfl
    have h := ih (StreamContainer s c)
    refine ⟨?_, ?_, ?_⟩
    · rw [hstep, h.1]
      simp [StreamContainer, List.append_assoc]
    · rw [hstep, h.2.1]
      simp [StreamContainer]
    · rw [hstep, h.2.2]
      simp [StreamContainer]

theorem filter_map_pair_not_mem (c : Container) (cb : Nat) :
    ∀ (ks : List Nat), cb ∉ ks →
      (ks.map (fun k => (k, c))).filter (fun p => p.1 == cb) = [] := by
  intro ks
  induction ks with
  | nil => intro _; rfl
  | cons k rest ih =>
    intro hnm
    have hk : ¬(k = cb) := fun h => hnm (by simp [h])
    have hr : cb ∉ rest := fun h => hnm (List.mem_cons_of_mem _ h)
    simp [List.filter_cons, hk, ih hr]

theorem filter_map_pair (c : Container) (cb : Nat) :
    ∀ (ks : List Nat), ks.Nodup → cb ∈ ks →
      (ks.map (fun k => (k, c))).filter (fun p => p.1 == cb) = [(cb, c)] := by
  intro ks
  induction ks with
  | nil => intro _ h; exact absurd h (by simp)
  | cons k rest ih =>
    intro hnd hmem
    rcases List.mem_cons.mp hmem with hk | hk
    · subst hk
      have hnm : cb ∉ rest := (List.nodup_cons.mp hnd).1
      simp [List.filter_cons, filter_map_pair_not_mem c cb rest hnm]
    · have hne : ¬(k = cb) := by
        intro h
        exact (List.nodup_cons.mp hnd).1 (h ▸ hk)
      simp [List.filter_cons, hne, ih (List.nodup_cons.mp hnd).2 hk]

theorem filter_flatMap_pairs (ks : List Nat) (cb : Nat)
    (hnd : ks.Nodup) (hcb : cb ∈ ks) :
    ∀ (cs : List Container),
      (((cs.flatMap (fun c => ks.map (fun k => (k, c)))).filter
          (fun p => p.1 == cb)).map Prod.snd) = cs := by
  intro cs
  induction cs with
  | nil => rfl
  | cons c rest ih =>
    rw [List.flatMap_cons, List.filter_append, List.map_append,
        filter_map_pair c cb ks hnd hcb, ih]
    rfl

theorem flatMap_congr_mem {α β : Type} :
    ∀ (l : List α) (f g : α → List β), (∀ a ∈ l, f a = g a) →
      l.flatMap f = l.flatMap g := by
  intro l
  induction l with
  | nil => intro f g _; rfl
  | cons a rest ih =>
    intro f g h
    rw [List.flatMap_cons, List.flatMap_cons, h a (by simp),
        ih f g (fun x hx => h x (List.mem_cons_of_mem _ hx))]

/-- Claim C3 counterexample: with one callback (id 0) registered for tag `T`,
storing one container of tag `T` via `StoreContainer` invokes no callback at
all — `StoreContainer` does not trigger the streaming dispatch. -/
theorem StoreContainer_no_dispatch_cex :
    stateCb.streaming_callbacks "T" = [0]
  ∧ contT1.containerType = "T"
  ∧ (StoreContainer stateCb contT1).invocations = []
  ∧ ¬((StoreContainer stateCb contT1).invocations.length = 1) := by
  refine ⟨rfl, rfl, rfl, by decide⟩

/-- Claim C3 (amended): `StoreContainer` does not dispatch; it is
`StreamContainer` that does.  With `k` callbacks registered for tag `T`,
streaming `n` containers of tag `T` invokes each registered callback exactly
`n` times, synchronously, in stream order, and leaves the container store
untouched. -/
theorem streaming_fanout_amended (s : DFState) (cs : List Container)
    (T : String) (cb : Nat)
    (hT : ∀ c ∈ cs, c.containerType = T)
    (hnd : (s.streaming_callbacks T).Nodup)
    (hcb : cb ∈ s.streaming_callbacks T) :
    (streamMany s cs).invocations
      = s.invocations ++
          cs.flatMap (fun c => (s.streaming_callbacks T).map (fun k => (k, c)))
  ∧ (((cs.flatMap (fun c => (s.streaming_callbacks T).map (fun k => (k, c)))).filter
        (fun p => p.1 == cb)).map Prod.snd) = cs
  ∧ ((cs.flatMap (fun c => (s.streaming_callbacks T).map (fun k => (k, c)))).filter
        (fun p => p.1 == cb)).length = cs.length
  ∧ (streamMany s cs).store = s.store := by
  have hcongr :
      cs.flatMap (fun c =>
        (s.streaming_callbacks c.containerType).map (fun k => (k, c)))
      = cs.flatMap (fun c => (s.streaming_callbacks T).map (fun k => (k, c))) := by
    refine flatMap_congr_mem cs _ _ ?_
    intro c hc
    rw [hT c hc]
  have hfil := filter_flatMap_pairs (s.streaming_callbacks T) cb hnd hcb cs
  refine ⟨?_, hfil, ?_, (streamMany_fields cs s).2.1⟩
  · rw [(streamMany_fields cs s).1, hcongr]
  · have := congrArg List.length hfil
    simpa using this

/-- Claim C3 (amended) witness: two callbacks for `T`, three containers of
tag `T` streamed: six invocations in stream order, callback 0 invoked exactly
three times. -/
theorem streaming_fanout_amended_witness :
    (streamMany stateCb2 [contT1, contT2, contT3]).invocations
      = [(0, contT1), (1, contT1), (0, contT2), (1, contT2), (0, contT3), (1, contT3)]
  ∧ ((([contT1, contT2, contT3].flatMap
        (fun c => (stateCb2.streaming_callbacks "T").map (fun k => (k, c)))).filter
        (fun p => p.1 == 0)).map Prod.snd) = [contT1, contT2, contT3] := by
  have h := streaming_fanout_amended stateCb2 [contT1, contT2, contT3] "T" 0
    (by decide) (by decide) (by decide)
  exact ⟨h.1.trans (by decide), h.2.1⟩

theorem addError_abort (s : DFState) (e : DFTimewolfError) :
    (AddError s e).abort_execution = (s.abort_execution || e.critical) := by
  cases hc : e.critical <;> simp [AddError, hc]

theorem addErrors_abort_mono :
    ∀ (es : List DFTimewolfError) (s : DFState), s.abort_execution = true →
      (addErrors s es).abort_execution = true := by
  intro es
  induction es with
  | nil => intro s h; exact h
  | cons e rest ih =>
    intro s h
    have : (AddError s e).abort_execution = true := by
      rw [addError_abort, h]; rfl
    exact ih (AddError s e) this

theorem runLogicCatch_abort_mono (n : String) (s : DFState) (oc : Outcome)
    (h : s.abort_execution = true) :
    (runLogicCatch n s oc).abort_execution = true := by
  cases oc <;> simp [runLogicCatch, addError_abort, h]

theorem recordDeclared_abort_mono (s : DFState) (oc : Outcome)
    (h : s.abort_execution = true) :
    (recordDeclared s oc).abort_execution = true := by
  cases oc <;> simp [recordDeclared, addError_abort, h]

theorem fanoutUnits_abort_mono (t : ThreadAwareSpec) :
    ∀ (cs : List Container) (s : DFState), s.abort_execution = true →
      (fanoutUnits t cs s).abort_execution = true := by
  intro cs
  induction cs with
  | nil => intro s h; exact h
  | cons c rest ih =>
    intro s h
    exact ih _ (recordDeclared_abort_mono s (t.unitOutcome c) h)

theorem runThreadAwareBody_abort_mono (n : String) (t : ThreadAwareSpec)
    (s : DFState) (h : s.abort_execution = true) :
    (runThreadAwareBody n t s).1.abort_execution = true := by
  unfold runThreadAwareBody
  have hfold := fanoutUnits_abort_mono t (s.store t.threadOnContainerType) s h
  cases t.preProcessOutcome with
  | declared e => simp [addError_abort, h]
  | unexpected m st => simp [addError_abort, h]
  | ok =>
    cases t.postProcessOutcome with
    | declared e => simp [addError_abort, hfold]
    | unexpected m st => simp [addError_abort, hfold]
    | ok =>
      cases hfs : ((s.store t.threadOnContainerType).map
          (fun c => outcomeFault (t.unitOutcome c))).findSome? id with
      | none =>
        simp only [hfs]
        cases hk : t.keepThreadedContainersInState <;>
          simp [hk, GetContainers, hfold]
      | some f =>
        simp only [hfs]
        cases f with
        | declaredF e => simpa using hfold
        | unexpectedF m st => simp [addError_abort, hfold]

theorem runModuleThread_abort_mono (rn : String) (impl : ModuleImpl)
    (s : DFState) (h : s.abort_execution = true) :
    (RunModuleThread rn impl s).1.abort_execution = true := by
  simp [RunModuleThread, h, CleanUp, SetModuleEvent]

theorem runPreflights_abort_mono :
    ∀ (pfs : List PreflightDef) (s : DFState), s.abort_execution = true →
      (RunPreflights pfs s).1.abort_execution = true := by
  intro pfs
  induction pfs with
  | nil => intro s h; exact h
  | cons pf rest ih =>
    intro s h
    have h1 := addErrors_abort_mono pf.setUpRecords s h
    have h2 := addErrors_abort_mono pf.processRecords _ h1
    simp only [RunPreflights]
    cases hsr : pf.setUpRaises with
    | true => simpa [hsr, checkErrors_state_id] using h1
    | false =>
      cases hpr : pf.processRaises with
      | true => simpa [hsr, hpr, checkErrors_state_id] using h2
      | false =>
        by_cases hck :
            (CheckErrors (addErrors (addErrors s pf.setUpRecords)
              pf.processRecords) true).2.2.isSome = true
        · simpa [hsr, hpr, hck, checkErrors_state_id] using h2
        · have hrec := ih _ h2
          simpa [hsr, hpr, hck, checkErrors_state_id] using hrec

/-- Claim C6: `AddError` with a critical record sets the run-wide abort flag
during that same call; the flag starts false at `__init__` and no state
operation ever resets it once set. -/
theorem abort_flag_monotonic (s : DFState) (e : DFTimewolfError) (k : String)
    (v : Nat) (c : Container) (tag : String) (pop is_global : Bool) (cb : Nat)
    (rn : String) (impl : ModuleImpl) (oc : Outcome)
    (pfs : List PreflightDef) :
    initialState.abort_execution = false
  ∧ (AddError s e).abort_execution = (s.abort_execution || e.critical)
  ∧ (AddToCache s k v).abort_execution = s.abort_execution
  ∧ (StoreContainer s c).abort_execution = s.abort_execution
  ∧ ((GetContainers s tag pop).1).abort_execution = s.abort_execution
  ∧ (RegisterStreamingCallback s cb tag).abort_execution = s.abort_execution
  ∧ (StreamContainer s c).abort_execution = s.abort_execution
  ∧ (CleanUp s).abort_execution = s.abort_execution
  ∧ ((CheckErrors s is_global).1).abort_execution = s.abort_execution
  ∧ (s.abort_execution = true →
       ((RunModuleThread rn impl s).1).abort_execution = true)
  ∧ (s.abort_execution = true →
       (SetupModuleThread rn oc s).abort_execution = true)
  ∧ (s.abort_execution = true →
       ((RunPreflights pfs s).1).abort_execution = true) := by
  refine ⟨rfl, addError_abort s e, rfl, rfl, ?_, rfl, rfl, rfl, rfl, ?_, ?_, ?_⟩
  · cases pop <;> simp [GetContainers]
  · exact runModuleThread_abort_mono rn impl s
  · intro h
    exact runLogicCatch_abort_mono rn s oc h
  · exact runPreflights_abort_mono pfs s

/-- Claim C6 witness: the flag starts false, and with the flag set a module
task run and a preflight run leave it set. -/
theorem abort_flag_monotonic_witness :
    initialState.abort_execution = false
  ∧ (AddError initialState errCrit).abort_execution
      = (initialState.abort_execution || errCrit.critical)
  ∧ ((RunModuleThread "m" (ModuleImpl.simple Outcome.ok) stateAbort).1).abort_execution
      = true
  ∧ ((RunPreflights [pfBenign] stateAbort).1).abort_execution = true := by
  have h0 := abort_flag_monotonic initialState errCrit "k" 0 contT1 "T" false false 0
    "m" (ModuleImpl.simple Outcome.ok) Outcome.ok [pfBenign]
  have h1 := abort_flag_monotonic stateAbort errCrit "k" 0 contT1 "T" false false 0
    "m" (ModuleImpl.simple Outcome.ok) Outcome.ok [pfBenign]
  obtain ⟨hi, ha, -, -, -, -, -, -, -, -, -, -⟩ := h0
  obtain ⟨-, -, -, -, -, -, -, -, -, hrun, -, hpf⟩ := h1
  exact ⟨hi, ha, hrun rfl, hpf rfl⟩

/-- Claim C2: a run-phase task that observes the abort flag set skips all
module logic (no `Process`, `PreProcess` or fan-out submission), yet still
sets its own completion signal and still drains the round errors via
`CleanUp`; and on every path — any module behaviour, any state — the
completion signal is set and `CleanUp` runs before returning. -/
theorem abort_short_circuit (s : DFState) (rn : String) (impl : ModuleImpl)
    (h : s.abort_execution = true) :
    (RunModuleThread rn impl s).2
      = [Action.logAbort, Action.setEvent rn, Action.cleanup]
  ∧ (∀ c : Container, Action.submit c ∉ (RunModuleThread rn impl s).2)
  ∧ Action.process ∉ (RunModuleThread rn impl s).2
  ∧ Action.preProcess ∉ (RunModuleThread rn impl s).2
  ∧ (RunModuleThread rn impl s).1.events rn = true
  ∧ (RunModuleThread rn impl s).1.errors = []
  ∧ (RunModuleThread rn impl s).1.global_errors = s.global_errors ++ s.errors
  ∧ (∀ (s' : DFState) (impl' : ModuleImpl),
       (RunModuleThread rn impl' s').1.events rn = true
     ∧ (RunModuleThread rn impl' s').1.errors = []
     ∧ Action.setEvent rn ∈ (RunModuleThread rn impl' s').2
     ∧ Action.cleanup ∈ (RunModuleThread rn impl' s').2) := by
  refine ⟨?_, ?_, ?_, ?_, ?_, ?_, ?_, ?_⟩
  · simp [RunModuleThread, h]
  · intro c; simp [RunModuleThread, h]
  · simp [RunModuleThread, h]
  · simp [RunModuleThread, h]
  · simp [RunModuleThread, h, CleanUp, SetModuleEvent]
  · simp [RunModuleThread, h, CleanUp, SetModuleEvent]
  · simp [RunModuleThread, h, CleanUp, SetModuleEvent]
  · intro s' impl'
    by_cases h' : s'.abort_execution = true
    · refine ⟨?_, ?_, ?_, ?_⟩ <;> simp [RunModuleThread, h', CleanUp, SetModuleEvent]
    · refine ⟨?_, ?_, ?_, ?_⟩ <;> simp [RunModuleThread, h', CleanUp, SetModuleEvent]

/-- Claim C2 witness: a concrete aborted task emits only the abort notice,
signal set and cleanup, and its completion event ends set. -/
theorem abort_short_circuit_witness :
    (RunModuleThread "m" (ModuleImpl.simple Outcome.ok) stateAbort).2
      = [Action.logAbort, Action.setEvent "m", Action.cleanup]
  ∧ (RunModuleThread "m" (ModuleImpl.simple Outcome.ok) stateAbort).1.events "m"
      = true
  ∧ (RunModuleThread "m" (ModuleImpl.simple Outcome.ok) stateAbort).1.errors
      = [] := by
  have h := abort_short_circuit stateAbort "m" (ModuleImpl.simple Outcome.ok) rfl
  exact ⟨h.1, h.2.2.2.2.1, h.2.2.2.2.2.1⟩

theorem fanoutUnits_fields (t : ThreadAwareSpec) :
    ∀ (cs : List Container) (s : DFState),
      (fanoutUnits t cs s).errors = s.errors ++ declaredUnitErrors t cs
    ∧ (fanoutUnits t cs s).global_errors = s.global_errors
    ∧ (fanoutUnits t cs s).store = s.store
    ∧ (fanoutUnits t cs s).events = s.events := by
  intro cs
  induction cs with
  | nil => intro s; simp [fanoutUnits, declaredUnitErrors]
  | cons c rest ih =>
    intro s
    have hstep : fanoutUnits t (c :: rest) s
        = fanoutUnits t rest (recordDeclared s (t.unitOutcome c)) := rfl
    have h := ih (recordDeclared s (t.unitOutcome c))
    refine ⟨?_, ?_, ?_, ?_⟩
    · rw [hstep, h.1]
      cases hoc : t.unitOutcome c <;>
        simp [recordDeclared, AddError, declaredUnitErrors, List.filterMap_cons,
              hoc, List.append_assoc]
    · rw [hstep, h.2.1]
      cases hoc : t.unitOutcome c <;> simp [recordDeclared, AddError, hoc]
    · rw [hstep, h.2.2.1]
      cases hoc : t.unitOutcome c <;> simp [recordDeclared, AddError, hoc]
    · rw [hstep, h.2.2.2]
      cases hoc : t.unitOutcome c <;> simp [recordDeclared, AddError, hoc]

theorem runThreadAwareBody_ok_eq (rn : String) (t : ThreadAwareSpec)
    (s : DFState)
    (hpre : t.preProcessOutcome = Outcome.ok)
    (hpost : t.postProcessOutcome = Outcome.ok) :
    runThreadAwareBody rn t s =
      match firstUnitFault t (s.store t.threadOnContainerType) with
      | some (UnitFault.declaredF e) =>
          (fanoutUnits t (s.store t.threadOnContainerType) s,
           Action.preProcess ::
             (s.store t.threadOnContainerType).map Action.submit ++
             [Action.postProcess, Action.surface (UnitFault.declaredF e)])
      | some (UnitFault.unexpectedF m st) =>
          (AddError (fanoutUnits t (s.store t.threadOnContainerType) s)
             (wrapUnknownError rn m st),
           Action.preProcess ::
             (s.store t.threadOnContainerType).map Action.submit ++
             [Action.postProcess, Action.surface (UnitFault.unexpectedF m st)])
      | none =>
          if t.keepThreadedContainersInState then
            (fanoutUnits t (s.store t.threadOnContainerType) s,
             Action.preProcess ::
               (s.store t.threadOnContainerType).map Action.submit ++
               [Action.postProcess])
          else
            ((GetContainers (fanoutUnits t (s.store t.threadOnContainerType) s)
                t.threadOnContainerType true).1,
             Action.preProcess ::
               (s.store t.threadOnContainerType).map Action.submit ++
               [Action.postProcess, Action.clearTag t.threadOnContainerType]) := by
  have hscrut : ((s.store t.threadOnContainerType).map
        (fun c => outcomeFault (t.unitOutcome c))).findSome? id
      = firstUnitFault t (s.store t.threadOnContainerType) := rfl
  unfold runThreadAwareBody
  rw [hpre, hpost]
  dsimp only
  rw [hscrut]
  cases hf : firstUnitFault t (s.store t.threadOnContainerType) with
  | none => rfl
  | some f => cases f <;> rfl

theorem runModuleThread_threadAware_eq (rn : String) (t : ThreadAwareSpec)
    (s : DFState) (habort : s.abort_execution = false) :
    RunModuleThread rn (ModuleImpl.threadAware t) s
      = (CleanUp (SetModuleEvent (runThreadAwareBody rn t s).1 rn),
         (runThreadAwareBody rn t s).2 ++
           [Action.setEvent rn, Action.cleanup]) := by
  simp [RunModuleThread, habort]

/-- Claim C9 counterexample: a fan-out batch of two units that both fail with
non-DFTimewolf exceptions records exactly one error — the second fault is
silently dropped (only the first future's exception is re-raised and
wrapped). -/
theorem second_unit_fault_dropped_cex :
    stateTT.store "T" = [contT1, contT2]
  ∧ stateTT.errors = [] ∧ stateTT.global_errors = []
  ∧ outcomeFault (taFail.unitOutcome contT1) ≠ none
  ∧ outcomeFault (taFail.unitOutcome contT2) ≠ none
  ∧ ((RunModuleThread "m" (ModuleImpl.threadAware taFail) stateTT).1.global_errors).length
      = 1 := by
  refine ⟨rfl, rfl, rfl, by decide, by decide, by decide⟩

/-- Claim C9 (amended): every fault in a module task's setup phase or
non-fan-out run phase is recorded in the ledger and migrated at cleanup —
a declared `DFTimewolfError` recorded by module logic at raise time with its
declared critical flag, any other exception wrapped by the task driver with
`critical=true`, `unexpected=true` and the stack trace; in a fan-out batch,
declared unit faults are recorded at raise time, but of the unexpected unit
faults only the first (in submission order) is wrapped and recorded. -/
theorem module_faults_recorded (s : DFState) (rn : String)
    (e : DFTimewolfError) (m st : String) (t : ThreadAwareSpec)
    (habort : s.abort_execution = false)
    (hpre : t.preProcessOutcome = Outcome.ok)
    (hpost : t.postProcessOutcome = Outcome.ok) :
    (SetupModuleThread rn (Outcome.declared e) s).global_errors
      = s.global_errors ++ s.errors ++ [e]
  ∧ (SetupModuleThread rn (Outcome.unexpected m st) s).global_errors
      = s.global_errors ++ s.errors ++ [wrapUnknownError rn m st]
  ∧ (RunModuleThread rn (ModuleImpl.simple (Outcome.declared e)) s).1.global_errors
      = s.global_errors ++ s.errors ++ [e]
  ∧ (RunModuleThread rn (ModuleImpl.simple (Outcome.unexpected m st)) s).1.global_errors
      = s.global_errors ++ s.errors ++ [wrapUnknownError rn m st]
  ∧ (RunModuleThread rn (ModuleImpl.threadAware t) s).1.global_errors
      = s.global_errors ++ s.errors
          ++ declaredUnitErrors t (s.store t.threadOnContainerType)
          ++ surfacedWrap rn (firstUnitFault t (s.store t.threadOnContainerType))
  ∧ (wrapUnknownError rn m st).critical = true
  ∧ (wrapUnknownError rn m st).unexpected = true
  ∧ (wrapUnknownError rn m st).stacktrace = some st := by
  have hfold := fanoutUnits_fields t (s.store t.threadOnContainerType) s
  refine ⟨?_, ?_, ?_, ?_, ?_, rfl, rfl, rfl⟩
  · simp [SetupModuleThread, runLogicCatch, AddError, CleanUp, List.append_assoc]
  · simp [SetupModuleThread, runLogicCatch, AddError, CleanUp, List.append_assoc]
  · simp [RunModuleThread, habort, runLogicCatch, AddError, CleanUp,
          SetModuleEvent, List.append_assoc]
  · simp [RunModuleThread, habort, runLogicCatch, AddError, CleanUp,
          SetModuleEvent, List.append_assoc]
  · rw [runModuleThread_threadAware_eq rn t s habort,
        runThreadAwareBody_ok_eq rn t s hpre hpost]
    cases hf : firstUnitFault t (s.store t.threadOnContainerType) with
    | none =>
      cases hk : t.keepThreadedContainersInState with
      | true =>
        simp [CleanUp, SetModuleEvent, surfacedWrap, hfold.1, hfold.2.1,
              List.append_assoc]
      | false =>
        simp [CleanUp, SetModuleEvent, GetContainers, surfacedWrap,
              hfold.1, hfold.2.1, List.append_assoc]
    | some f =>
      cases f with
      | declaredF e' =>
        simp [CleanUp, SetModuleEvent, surfacedWrap, hfold.1, hfold.2.1,
              List.append_assoc]
      | unexpectedF m' st' =>
        simp [CleanUp, SetModuleEvent, AddError, surfacedWrap, hfold.1,
              hfold.2.1, List.append_assoc]

/-- Claim C9 (amended) witness: a concrete setup-phase unknown fault is
wrapped (critical, unexpected, stack trace kept) and lands in the ledger. -/
theorem module_faults_recorded_witness :
    (SetupModuleThread "m" (Outcome.unexpected "oops" "tb") initialState).global_errors
      = [wrapUnknownError "m" "oops" "tb"]
  ∧ (wrapUnknownError "m" "oops" "tb").critical = true
  ∧ (wrapUnknownError "m" "oops" "tb").unexpected = true := by
  have h := module_faults_recorded initialState "m" errCrit "oops" "tb" taOk
    rfl rfl rfl
  exact ⟨h.2.1.trans (by decide), h.2.2.2.2.2.1, h.2.2.2.2.2.2.1⟩

/-- Claim C4 counterexample: a fan-out with `RetainAfterFanOut` false and a
failing unit does not clear the store for the fan-out tag — the clearing is
skipped whenever a unit failure is surfaced. -/
theorem fanout_failure_keeps_store_cex :
    taFail.keepThreadedContainersInState = false
  ∧ firstUnitFault taFail (stateTT.store "T") ≠ none
  ∧ (RunModuleThread "m" (ModuleImpl.threadAware taFail) stateTT).1.store "T"
      = [contT1, contT2]
  ∧ (RunModuleThread "m" (ModuleImpl.threadAware taFail) stateTT).1.store "T"
      ≠ [] := by
  refine ⟨rfl, by decide, by decide, by decide⟩

/-- Claim C4 (amended): a fan-out run submits one task per container of the
fan-out tag, drains the pool regardless of failures, then calls
`PostProcess`, and only after that surfaces the first per-unit failure (in
submission order); if `RetainAfterFanOut` is false and no unit failed the
tag's entries are atomically cleared, while a surfaced unit failure skips the
clearing and leaves the store untouched. -/
theorem fanout_completion_order (s : DFState) (rn : String)
    (t : ThreadAwareSpec)
    (habort : s.abort_execution = false)
    (hpre : t.preProcessOutcome = Outcome.ok)
    (hpost : t.postProcessOutcome = Outcome.ok) :
    (RunModuleThread rn (ModuleImpl.threadAware t) s).2
      = Action.preProcess ::
          (s.store t.threadOnContainerType).map Action.submit ++
          [Action.postProcess] ++
          (match firstUnitFault t (s.store t.threadOnContainerType) with
           | some f => [Action.surface f]
           | none =>
              if t.keepThreadedContainersInState then []
              else [Action.clearTag t.threadOnContainerType]) ++
          [Action.setEvent rn, Action.cleanup]
  ∧ (firstUnitFault t (s.store t.threadOnContainerType) = none →
     t.keepThreadedContainersInState = false →
       (RunModuleThread rn (ModuleImpl.threadAware t) s).1.store
         t.threadOnContainerType = [])
  ∧ (∀ f, firstUnitFault t (s.store t.threadOnContainerType) = some f →
       (RunModuleThread rn (ModuleImpl.threadAware t) s).1.store = s.store) := by
  have hfold := fanoutUnits_fields t (s.store t.threadOnContainerType) s
  rw [runModuleThread_threadAware_eq rn t s habort,
      runThreadAwareBody_ok_eq rn t s hpre hpost]
  refine ⟨?_, ?_, ?_⟩
  · cases hf : firstUnitFault t (s.store t.threadOnContainerType) with
    | none =>
      cases hk : t.keepThreadedContainersInState <;>
        simp [hk, List.append_assoc]
    | some f =>
      cases f <;> simp [List.append_assoc]
  · intro hf hk
    rw [hf]
    simp [hk, CleanUp, SetModuleEvent, GetContainers, hfold.2.2.1]
  · intro f hf
    rw [hf]
    cases f <;> simp [CleanUp, SetModuleEvent, AddError, hfold.2.2.1]

/-- Claim C4 (amended) witness: a concrete all-success fan-out over two
containers emits the submit/postProcess/clear trace in order and clears the
tag. -/
theorem fanout_completion_order_witness :
    (RunModuleThread "m" (ModuleImpl.threadAware taOk) stateTT).2
      = [Action.preProcess, Action.submit contT1, Action.submit contT2,
         Action.postProcess, Action.clearTag "T",
         Action.setEvent "m", Action.cleanup]
  ∧ (RunModuleThread "m" (ModuleImpl.threadAware taOk) stateTT).1.store "T"
      = [] := by
  have h := fanout_completion_order stateTT "m" taOk rfl rfl rfl
  exact ⟨h.1.trans (by decide), h.2.1 (by decide) rfl⟩

theorem addErrors_fields :
    ∀ (es : List DFTimewolfError) (s : DFState),
      (addErrors s es).errors = s.errors ++ es
    ∧ (addErrors s es).global_errors = s.global_errors := by
  intro es
  induction es with
  | nil => intro s; simp [addErrors]
  | cons e rest ih =>
    intro s
    have hstep : addErrors s (e :: rest) = addErrors (AddError s e) rest := rfl
    have h := ih (AddError s e)
    constructor
    · rw [hstep, h.1]
      simp [AddError]
    · rw [hstep, h.2]
      simp [AddError]

/-- Claim C8 counterexample: a preflight that records a critical error via
`AddError` (round-scoped list) without raising is not stopped by the
per-preflight `CheckErrors(is_global=True)` — the next preflight's `SetUp`
still runs and the run finishes without a fatal abort. -/
theorem preflight_critical_not_raised_cex :
    errCrit.critical = true
  ∧ pfRecords.processRecords = [errCrit]
  ∧ (RunPreflights [pfRecords, pfBenign] initialState).2.1
      = [PfAction.setUp "p1", PfAction.process "p1", PfAction.checkErrors,
         PfAction.setUp "p2", PfAction.process "p2", PfAction.checkErrors]
  ∧ (RunPreflights [pfRecords, pfBenign] initialState).2.2 = none
  ∧ PfAction.setUp "p2" ∈ (RunPreflights [pfRecords, pfBenign] initialState).2.1 := by
  refine ⟨rfl, rfl, by decide, by decide, by decide⟩

theorem runPreflights_benign :
    ∀ (pfs : List PreflightDef) (s : DFState),
      s.global_errors.any (fun e => e.critical) = false →
      (∀ q ∈ pfs, q.setUpRaises = false ∧ q.processRaises = false) →
      (RunPreflights pfs s).2.1
        = pfs.flatMap (fun q =>
            [PfAction.setUp q.runtime_name, PfAction.process q.runtime_name,
             PfAction.checkErrors])
    ∧ (RunPreflights pfs s).2.2 = none
    ∧ (RunPreflights pfs s).1.global_errors = s.global_errors
    ∧ (RunPreflights pfs s).1.errors
        = s.errors ++ pfs.flatMap (fun q => q.setUpRecords ++ q.processRecords) := by
  intro pfs
  induction pfs with
  | nil => intro s hg hr; simp [RunPreflights]
  | cons pf rest ih =>
    intro s hg hr
    have hpf := hr pf (by simp)
    have ha1 := addErrors_fields pf.setUpRecords s
    have ha2 := addErrors_fields pf.processRecords (addErrors s pf.setUpRecords)
    have hglob2 : (addErrors (addErrors s pf.setUpRecords)
        pf.processRecords).global_errors = s.global_errors := by
      rw [ha2.2, ha1.2]
    have hchk : (CheckErrors (addErrors (addErrors s pf.setUpRecords)
        pf.processRecords) true).2.2.isSome = false := by
      rw [checkErrors_raise_isSome]
      simpa [hglob2] using hg
    have hrest := ih (addErrors (addErrors s pf.setUpRecords) pf.processRecords)
      (by rw [hglob2]; exact hg)
      (fun q hq => hr q (List.mem_cons_of_mem _ hq))
    have hstep : RunPreflights (pf :: rest) s
        = ((RunPreflights rest
              (addErrors (addErrors s pf.setUpRecords) pf.processRecords)).1,
           PfAction.setUp pf.runtime_name :: PfAction.process pf.runtime_name ::
             PfAction.checkErrors ::
             (RunPreflights rest
               (addErrors (addErrors s pf.setUpRecords) pf.processRecords)).2.1,
           (RunPreflights rest
             (addErrors (addErrors s pf.setUpRecords) pf.processRecords)).2.2) := by
      simp [RunPreflights, hpf.1, hpf.2, hchk, checkErrors_state_id]
    refine ⟨?_, ?_, ?_, ?_⟩
    · rw [hstep]
      dsimp only
      rw [hrest.1, List.flatMap_cons]
      simp
    · rw [hstep]
      exact hrest.2.1
    · rw [hstep]
      dsimp only
      rw [hrest.2.2.1, hglob2]
    · rw [hstep]
      dsimp only
      rw [hrest.2.2.2, ha2.1, ha1.1]
      simp [List.append_assoc]

/-- Claim C8 (amended): preflights run strictly sequentially in declaration
order, `SetUp` then `Process` for each, with `CheckErrors` on the global list
after every preflight regardless of success.  Errors a preflight records go
to the round-scoped list and are not migrated before that check, so the
per-preflight check consults only the global list as it was (it raises only
if that list already holds a critical record); an early stop before the next
preflight's `SetUp` happens only when the preflight itself raises. -/
theorem run_preflights_sequential (pfs : List PreflightDef)
    (p : PreflightDef) (rest : List PreflightDef) (s : DFState)
    (hglob : s.global_errors.any (fun e => e.critical) = false)
    (hnr : ∀ q ∈ pfs, q.setUpRaises = false ∧ q.processRaises = false) :
    (RunPreflights pfs s).2.1
      = pfs.flatMap (fun q =>
          [PfAction.setUp q.runtime_name, PfAction.process q.runtime_name,
           PfAction.checkErrors])
  ∧ (RunPreflights pfs s).2.2 = none
  ∧ (RunPreflights pfs s).1.global_errors = s.global_errors
  ∧ (RunPreflights pfs s).1.errors
      = s.errors ++ pfs.flatMap (fun q => q.setUpRecords ++ q.processRecords)
  ∧ (p.setUpRaises = true →
       (RunPreflights (p :: rest) s).2.1
         = [PfAction.setUp p.runtime_name, PfAction.checkErrors]
     ∧ (RunPreflights (p :: rest) s).2.2.isSome = true) := by
  have h := runPreflights_benign pfs s hglob hnr
  refine ⟨h.1, h.2.1, h.2.2.1, h.2.2.2, ?_⟩
  intro hraise
  constructor
  · simp [RunPreflights, hraise]
  · simp [RunPreflights, hraise]

/-- Claim C8 (amended) witness: a benign preflight list runs in order with a
check after each, and a raising preflight stops the run at its own boundary. -/
theorem run_preflights_sequential_witness :
    (RunPreflights [pfBenign] initialState).2.1
      = [PfAction.setUp "p2", PfAction.process "p2", PfAction.checkErrors]
  ∧ (RunPreflights [pfBenign] initialState).2.2 = none
  ∧ (RunPreflights [pfRaise] initialState).2.2.isSome = true := by
  have h := run_preflights_sequential [pfBenign] pfRaise [] initialState
    (by decide) (by decide)
  exact ⟨h.1.trans (by decide), h.2.1, (h.2.2.2.2 rfl).2⟩

theorem moduleDef_name_inj (defs : List ModuleDef)
    (hnd : (defs.map (fun d => d.runtime_name)).Nodup)
    {m m' : ModuleDef} (hm : m ∈ defs) (hm' : m' ∈ defs)
    (h : m.runtime_name = m'.runtime_name) : m = m' :=
  List.inj_on_of_nodup_map hnd hm hm' h

theorem wantsOf_eq :
    ∀ (defs : List ModuleDef),
      (defs.map (fun d => d.runtime_name)).Nodup →
      ∀ m ∈ defs, wantsOf defs m.runtime_name = m.wants := by
  intro defs
  induction defs with
  | nil => intro _ m hm; exact absurd hm (by simp)
  | cons d rest ih =>
    intro hnd m hm
    rcases List.mem_cons.mp hm with h | h
    · subst h
      have hfind : List.find? (fun x => x.runtime_name == m.runtime_name)
          (m :: rest) = some m :=
        List.find?_cons_of_pos _ (by simp)
      simp [wantsOf, hfind]
    · have hne : ¬(d.runtime_name = m.runtime_name) := by
        intro he
        have hmem : m.runtime_name ∈ rest.map (fun x => x.runtime_name) :=
          List.mem_map_of_mem _ h
        rw [← he] at hmem
        exact (List.nodup_cons.mp hnd).1 hmem
      have hfind : List.find? (fun x => x.runtime_name == m.runtime_name)
          (d :: rest) = List.find? (fun x => x.runtime_name == m.runtime_name) rest :=
        List.find?_cons_of_neg _ (by simpa using hne)
      simp only [wantsOf, hfind]
      exact ih (List.nodup_cons.mp hnd).2 m h

theorem TaskInvariant_mono {w : List String} {pc : TaskPC}
    {ev ev' : String → Bool}
    (hmono : ∀ d, ev d = true → ev' d = true) :
    TaskInvariant w pc ev → TaskInvariant w pc ev' := by
  cases pc with
  | waiting pending =>
    rintro ⟨pre, hpre, hall⟩
    exact ⟨pre, hpre, fun d hd => hmono d (hall d hd)⟩
  | running => intro h d hd; exact hmono d (h d hd)
  | done => intro h d hd; exact hmono d (h d hd)

theorem schedInv_init (defs : List ModuleDef)
    (hnd : (defs.map (fun d => d.runtime_name)).Nodup) :
    SchedInv defs (initSched defs) := by
  constructor
  · intro m hm
    show TaskInvariant m.wants (TaskPC.waiting (wantsOf defs m.runtime_name)) _
    rw [wantsOf_eq defs hnd m hm]
    exact ⟨[], rfl, by simp⟩
  · intro m hm hev
    exact absurd hev (by simp [initSched])

theorem schedInv_step (defs : List ModuleDef)
    (hnd : (defs.map (fun d => d.runtime_name)).Nodup)
    {s s' : SchedState} (hstep : SchedStep defs s s')
    (hinv : SchedInv defs s) : SchedInv defs s' := by
  obtain ⟨htask, hev⟩ := hinv
  cases hstep with
  | waitDep m d rest hm hpc hd =>
    constructor
    · intro m' hm'
      by_cases hname : m'.runtime_name = m.runtime_name
      · have hmm : m' = m := moduleDef_name_inj defs hnd hm' hm hname
        subst hmm
        have hold := htask m' hm'
        rw [hpc] at hold
        obtain ⟨pre, hsplit, hall⟩ := hold
        have hnew : TaskInvariant m'.wants (TaskPC.waiting rest) s.events := by
          refine ⟨pre ++ [d], ?_, ?_⟩
          · rw [hsplit]; simp
          · intro x hx
            rcases List.mem_append.mp hx with hx | hx
            · exact hall x hx
            · have hxd : x = d := by simpa using hx
              rw [hxd]; exact hd
        simpa using hnew
      · have hgoal : TaskInvariant m'.wants (s.pcs m'.runtime_name) s.events :=
          htask m' hm'
        simpa [hname] using hgoal
    · intro m' hm' hev'
      by_cases hname : m'.runtime_name = m.runtime_name
      · have hd' := hev m' hm' hev'
        rw [hname, hpc] at hd'
        exact absurd hd' (by simp)
      · simpa [hname] using hev m' hm' hev'
  | beginRun m hm hpc habort =>
    constructor
    · intro m' hm'
      by_cases hname : m'.runtime_name = m.runtime_name
      · have hmm : m' = m := moduleDef_name_inj defs hnd hm' hm hname
        subst hmm
        have hold := htask m' hm'
        rw [hpc] at hold
        obtain ⟨pre, hsplit, hall⟩ := hold
        have hnew : TaskInvariant m'.wants TaskPC.running s.events := by
          intro x hx
          rw [hsplit] at hx
          exact hall x (by simpa using hx)
        simpa using hnew
      · have hgoal : TaskInvariant m'.wants (s.pcs m'.runtime_name) s.events :=
          htask m' hm'
        simpa [hname] using hgoal
    · intro m' hm' hev'
      by_cases hname : m'.runtime_name = m.runtime_name
      · have hd' := hev m' hm' hev'
        rw [hname, hpc] at hd'
        exact absurd hd' (by simp)
      · simpa [hname] using hev m' hm' hev'
  | abortSkip m hm hpc habort =>
    have hmono : ∀ n, s.events n = true →
        (if n = m.runtime_name then true else s.events n) = true := by
      intro n h
      by_cases hn : n = m.runtime_name <;> simp [hn, h]
    constructor
    · intro m' hm'
      by_cases hname : m'.runtime_name = m.runtime_name
      · have hmm : m' = m := moduleDef_name_inj defs hnd hm' hm hname
        subst hmm
        have hold := htask m' hm'
        rw [hpc] at hold
        obtain ⟨pre, hsplit, hall⟩ := hold
        have hnew : TaskInvariant m'.wants TaskPC.done
            (fun n => if n = m'.runtime_name then true else s.events n) := by
          intro x hx
          rw [hsplit] at hx
          exact hmono x (hall x (by simpa using hx))
        simpa using hnew
      · have hgoal : TaskInvariant m'.wants (s.pcs m'.runtime_name) s.events :=
          htask m' hm'
        have := TaskInvariant_mono hmono hgoal
        simpa [hname] using this
    · intro m' hm' hev'
      by_cases hname : m'.runtime_name = m.runtime_name
      · simp [hname]
      · have hev'' : s.events m'.runtime_name = true := by
          simpa [hname] using hev'
        simpa [hname] using hev m' hm' hev''
  | finishRun m b hm hpc =>
    have hmono : ∀ n, s.events n = true →
        (if n = m.runtime_name then true else s.events n) = true := by
      intro n h
      by_cases hn : n = m.runtime_name <;> simp [hn, h]
    constructor
    · intro m' hm'
      by_cases hname : m'.runtime_name = m.runtime_name
      · have hmm : m' = m := moduleDef_name_inj defs hnd hm' hm hname
        subst hmm
        have hold := htask m' hm'
        rw [hpc] at hold
        have hnew : TaskInvariant m'.wants TaskPC.done
            (fun n => if n = m'.runtime_name then true else s.events n) := by
          intro x hx
          exact hmono x (hold x hx)
        simpa using hnew
      · have hgoal : TaskInvariant m'.wants (s.pcs m'.runtime_name) s.events :=
          htask m' hm'
        have := TaskInvariant_mono hmono hgoal
        simpa [hname] using this
    · intro m' hm' hev'
      by_cases hname : m'.runtime_name = m.runtime_name
      · simp [hname]
      · have hev'' : s.events m'.runtime_name = true := by
          simpa [hname] using hev'
        simpa [hname] using hev m' hm' hev''

theorem schedReachable_inv (defs : List ModuleDef)
    (hnd : (defs.map (fun d => d.runtime_name)).Nodup)
    {s : SchedState} (hreach : SchedReachable defs s) : SchedInv defs s := by
  induction hreach with
  | init => exact schedInv_init defs hnd
  | step h1 h2 ih => exact schedInv_step defs hnd h2 ih

/-- Claim C1: under every interleaving of the run-phase tasks, a module whose
task has begun its module logic (`running`) has every dependency's completion
event already set, and every declared module owning such an event has
terminated — the task waits conjunctively on all names in its `wants` before
executing any module logic. -/
theorem dependency_ordering (defs : List ModuleDef) (s : SchedState)
    (m : ModuleDef)
    (hnd : (defs.map (fun d => d.runtime_name)).Nodup)
    (hreach : SchedReachable defs s) (hm : m ∈ defs)
    (hrun : s.pcs m.runtime_name = TaskPC.running) :
    ∀ d ∈ m.wants, s.events d = true ∧
      ∀ m' ∈ defs, m'.runtime_name = d → s.pcs d = TaskPC.done := by
  have hinv := schedReachable_inv defs hnd hreach
  intro d hd
  have h1 := hinv.1 m hm
  rw [hrun] at h1
  have hde : s.events d = true := h1 d hd
  refine ⟨hde, ?_⟩
  intro m' hm' hname
  have hdone := hinv.2 m' hm' (by rw [hname]; exact hde)
  rw [hname] at hdone
  exact hdone

/-- Claim C1 witness: in the concrete recipe `A`, `B (wants=[A])`, a
reachable schedule in which `B` is running has `A` completed and its event
set. -/
theorem dependency_ordering_witness :
    schedAB4.events "A" = true ∧ schedAB4.pcs "A" = TaskPC.done := by
  have h0 : SchedReachable defsAB schedAB0 := SchedReachable.init
  have s1 : SchedStep defsAB schedAB0 schedAB1 :=
    SchedStep.beginRun schedAB0 ⟨"A", []⟩ (by decide) (by decide) (by decide)
  have h1 : SchedReachable defsAB schedAB1 := SchedReachable.step h0 s1
  have s2 : SchedStep defsAB schedAB1 schedAB2 :=
    SchedStep.finishRun schedAB1 ⟨"A", []⟩ false (by decide) (by decide)
  have h2 : SchedReachable defsAB schedAB2 := SchedReachable.step h1 s2
  have s3 : SchedStep defsAB schedAB2 schedAB3 :=
    SchedStep.waitDep schedAB2 ⟨"B", ["A"]⟩ "A" [] (by decide) (by decide)
      (by decide)
  have h3 : SchedReachable defsAB schedAB3 := SchedReachable.step h2 s3
  have s4 : SchedStep defsAB schedAB3 schedAB4 :=
    SchedStep.beginRun schedAB3 ⟨"B", ["A"]⟩ (by decide) (by decide) (by decide)
  have h4 : SchedReachable defsAB schedAB4 := SchedReachable.step h3 s4
  have hmain := dependency_ordering defsAB schedAB4 ⟨"B", ["A"]⟩ (by decide) h4
    (by decide) (by decide)
  have h := hmain "A" (by decide)
  exact ⟨h.1, h.2 ⟨"A", []⟩ (by decide) rfl⟩

end DFTW
